import Mathlib

/-!
Verification of the cycle-orchestration core of the seven-layer-symphony
repository: a shallow embedding of `flower_synthesis.rs`, `time_weaving_loom.rs`,
`perfect_musician.rs`, `intent_engine.rs` and the parts of `spiral_score.rs`
the orchestrator touches, with the numeric type `f32` modelled by `ℚ`
(exact arithmetic) and the `f32` trigonometric functions modelled by explicit
function parameters `rcos rsin : ℚ → ℚ` (every theorem below that involves
them holds for an arbitrary interpretation of those two functions).
-/

/-- A 7-dimensional vector, the Rust type `[f32; 7]`. -/
def Vec7 : Type := Fin 7 → ℚ

/-- A 5-dimensional vector, the Rust type `[f32; 5]`. -/
def Vec5 : Type := Fin 5 → ℚ

instance : DecidableEq Vec7 := fun a b =>
  Fintype.decidablePiFintype (β := fun _ : Fin 7 => ℚ) a b

instance : DecidableEq Vec5 := fun a b =>
  Fintype.decidablePiFintype (β := fun _ : Fin 5 => ℚ) a b

/-- Truncation toward zero of a rational number, the rounding used by the
hardware operations behind Rust's `%` on floats. -/
def ratTrunc (q : ℚ) : ℤ := if 0 ≤ q then ⌊q⌋ else -⌊-q⌋

/-- Rust's `%` on floats: the remainder `x - y * trunc (x / y)`, its sign
that of the dividend. -/
def rustRem (x y : ℚ) : ℚ := x - y * (ratTrunc (x / y) : ℚ)

/-! ## flower_synthesis.rs: FlowerOfLife -/

/-- States of the flower's blooming (`enum BloomState`). -/
inductive BloomState where
  | Seed
  | Sprouting
  | Budding
  | Blooming
  | FullBloom
deriving DecidableEq, Repr

/-- The `match` on `kohanist_level` at the end of `update_kohanist`
(`flower_synthesis.rs:76-82`), as a function of the scrutinee. -/
def bloomStateOf (k : ℚ) : BloomState :=
  if k < 0.3 then .Seed
  else if k < 0.6 then .Sprouting
  else if k < 0.9 then .Budding
  else if k < 0.98 then .Blooming
  else .FullBloom

/-- `struct FlowerOfLife` (`flower_synthesis.rs:18-24`). -/
structure FlowerOfLife where
  petals : List Vec7
  center : Vec7
  radius : ℚ
  kohanist_level : ℚ
  bloom_state : BloomState

/-- `FlowerOfLife::seed` (`flower_synthesis.rs:39-47`). -/
def FlowerOfLife.seed (center : Vec7) : FlowerOfLife :=
  { petals := []
    center := center
    radius := 1
    kohanist_level := 0
    bloom_state := .Seed }

/-- The per-petal harmony contribution summed by the loop in
`update_kohanist` (`flower_synthesis.rs:64-71`): for one petal,
`petal_harmony / 7` where `petal_harmony = Σ_i (1 - |petal[i] - center[i]|)`. -/
def petalContribution (center petal : Vec7) : ℚ :=
  (∑ i, (1 - |petal i - center i|)) / 7

/-- `FlowerOfLife::update_kohanist` (`flower_synthesis.rs:56-83`): the empty
history is guarded (harmony set to `0` and an early return, the division and
the state `match` never reached); otherwise the aggregate harmony is the mean
over the whole history of the per-petal contributions and the bloom state is
re-derived from it. -/
def FlowerOfLife.update_kohanist (f : FlowerOfLife) : FlowerOfLife :=
  if f.petals = [] then
    { f with kohanist_level := 0 }
  else
    let k := (f.petals.map (petalContribution f.center)).sum / f.petals.length
    { f with kohanist_level := k, bloom_state := bloomStateOf k }

/-- `FlowerOfLife::add_petal` (`flower_synthesis.rs:50-53`): push, then
recompute. -/
def FlowerOfLife.add_petal (f : FlowerOfLife) (timeline : Vec7) : FlowerOfLife :=
  FlowerOfLife.update_kohanist { f with petals := f.petals ++ [timeline] }

/-! ## intent_engine.rs -/

/-- `struct Intent` (`intent_engine.rs:15-20`). -/
structure Intent where
  desire : ℚ
  clarity : ℚ
  resonance : ℚ
  vector : Vec7

/-- `Intent::from_desire` (`intent_engine.rs:24-31`). -/
def Intent.from_desire (desire : ℚ) (direction : Vec7) : Intent :=
  { desire := desire
    clarity := 0.5
    resonance := 0.618
    vector := direction }

/-- `Intent::manifest` (`intent_engine.rs:42-45`). -/
def Intent.manifest (it : Intent) (universe_receptivity : ℚ) : ℚ :=
  it.desire * it.clarity * it.resonance * universe_receptivity

/-- `struct IntentEngine` (`intent_engine.rs:49-53`). -/
structure IntentEngine where
  universe_state : Vec7
  receptivity : ℚ
  manifestation_threshold : ℚ
deriving DecidableEq

/-- `IntentEngine::new` (`intent_engine.rs:57-63`). -/
def IntentEngine.new : IntentEngine :=
  { universe_state := fun _ => 0.5
    receptivity := 0.618
    manifestation_threshold := 0.8 }

/-- `IntentEngine::inspire` (`intent_engine.rs:66-86`), returning the updated
engine together with the returned vector (`&mut self` made explicit). -/
def IntentEngine.inspire (e : IntentEngine) (intent : Intent) :
    IntentEngine × Vec7 :=
  let inspired_state : Vec7 := fun i =>
    e.universe_state i * (1 - intent.resonance)
      + (intent.vector i * intent.desire) * intent.resonance
  let manifestation_power := intent.manifest e.receptivity
  (if manifestation_power > e.manifestation_threshold then
     { e with universe_state := inspired_state }
   else e,
   inspired_state)

/-! ## perfect_musician.rs -/

/-- `struct ReaderContext` (`perfect_musician.rs:17-22`). -/
structure ReaderContext where
  soul : Vec7
  frequency : ℚ
  understanding : ℚ
  intent : ℚ

/-- `struct PerfectMusician` (`perfect_musician.rs:25-30`); the
`soul_registry` field (a list of glyph hashes) is not read by any operation
modelled here and is omitted. -/
structure PerfectMusician where
  higher_octaves : ℕ
  improvisation_factor : ℚ
  reader_sensitivity : ℚ
deriving DecidableEq

/-- `PerfectMusician::transcendent` (`perfect_musician.rs:34-41`). -/
def PerfectMusician.transcendent (octaves : ℕ) : PerfectMusician :=
  { higher_octaves := octaves
    improvisation_factor := 0.618
    reader_sensitivity := 0.5 }

/-- `PerfectMusician::interpret` (`perfect_musician.rs:44-78`): promote the
5-hint to 7 components (copy 0-4, index 5 the mean of the five, index 6 one
minus that mean), blend with the reader's soul, scale by understanding, then
branch on the reader's intent. -/
def PerfectMusician.interpret (m : PerfectMusician) (code_hint : Vec5)
    (reader : ReaderContext) : Vec7 :=
  let base_interpretation : Vec7 := fun i =>
    if h : (i : ℕ) < 5 then code_hint ⟨i, h⟩
    else if (i : ℕ) = 5 then (∑ j, code_hint j) / 5
    else 1 - (∑ j, code_hint j) / 5
  fun i =>
    let blended := base_interpretation i * (1 - m.reader_sensitivity)
      + reader.soul i * m.reader_sensitivity
    let scaled := blended * reader.understanding
    if reader.intent > 0.5 then rustRem (scaled * 1.618034) 1
    else min scaled 1

/-! ## time_weaving_loom.rs -/

/-- `struct TimeWeavingLoom` (`time_weaving_loom.rs:30-37`); of the two
thread records only the counters mutated by `approach_present` and
`retreat_from_present` are kept (their vector payloads are never read). -/
structure TimeWeavingLoom where
  git_commits : ℕ
  mercurial_revisions : ℕ
  present_gravity : Vec7
  orbital_radius : ℚ
  orbital_phase : ℚ
  weave_pattern : List Vec7

/-- `TimeWeavingLoom::new` (`time_weaving_loom.rs:41-58`). -/
def TimeWeavingLoom.new (present : Vec7) : TimeWeavingLoom :=
  { git_commits := 0
    mercurial_revisions := 0
    present_gravity := present
    orbital_radius := 1
    orbital_phase := 0
    weave_pattern := [] }

/-- `TimeWeavingLoom::weave` (`time_weaving_loom.rs:61-87`), returning the
updated loom with the woven vector; `rcos`/`rsin` interpret the `f32`
trigonometric functions. -/
def TimeWeavingLoom.weave (rcos rsin : ℚ → ℚ) (L : TimeWeavingLoom)
    (forward backward : Vec7) : TimeWeavingLoom × Vec7 :=
  let woven : Vec7 := fun i =>
    let warp := forward i * (1 + rcos L.orbital_phase)
    let weft := backward i * (1 + rsin L.orbital_phase)
    let w := (warp + weft) / 2
    w * (1 - 1 / L.orbital_radius)
      + L.present_gravity i * (1 / L.orbital_radius)
  ({ L with
      weave_pattern := L.weave_pattern ++ [woven]
      orbital_phase := rustRem (L.orbital_phase + 0.1) (2 * 3.14159) },
   woven)

/-- `TimeWeavingLoom::approach_present` (`time_weaving_loom.rs:103-110`). -/
def TimeWeavingLoom.approach_present (L : TimeWeavingLoom) (delta : ℚ) :
    TimeWeavingLoom :=
  let L' := { L with orbital_radius := max (L.orbital_radius - delta) 0.1 }
  if L'.orbital_radius < 0.5 then { L' with git_commits := L'.git_commits + 1 }
  else L'

/-- `TimeWeavingLoom::retreat_from_present` (`time_weaving_loom.rs:113-120`). -/
def TimeWeavingLoom.retreat_from_present (L : TimeWeavingLoom) (delta : ℚ) :
    TimeWeavingLoom :=
  let L' := { L with orbital_radius := min (L.orbital_radius + delta) 10 }
  if L'.orbital_radius > 2 then
    { L' with mercurial_revisions := L'.mercurial_revisions + 1 }
  else L'

/-! ## spiral_score.rs (only what `synthesize_cycle` touches) -/

/-- `struct Glyph` (`spiral_score.rs:23-28`). -/
structure Glyph where
  symbol : ℕ
  frequency : ℚ
  harmonics : Vec7
  intent : ℚ

/-- `struct SpiralTime` (`spiral_score.rs:32-36`). -/
structure SpiralTime where
  radius : ℚ
  angle : ℚ
  layer : ℕ

/-- `struct SpiralNote` (`spiral_score.rs:40-45`). -/
structure SpiralNote where
  time : SpiralTime
  glyph : Glyph
  amplitude : ℚ
  phase : ℚ

/-- `struct SpiralScore` (`spiral_score.rs:48-52`). -/
structure SpiralScore where
  musicians : Fin 4 → Glyph
  notes : List SpiralNote
  future_shadow : ℚ

/-- `SpiralScore::quartet` (`spiral_score.rs:56-67`). -/
def SpiralScore.quartet : SpiralScore :=
  { musicians :=
      ![⟨0x1F300, 432, fun _ => 1, 1⟩,
        ⟨0x1F4AB, 528, fun _ => 1, 1⟩,
        ⟨0x1F52E, 639, fun _ => 1, 1⟩,
        ⟨0x2764, 432, fun _ => 1, 1⟩]
    notes := []
    future_shadow := 0.618 }

/-- `SpiralScore::add_note` (`spiral_score.rs:70-80`). -/
def SpiralScore.add_note (s : SpiralScore) (musician_idx : ℕ)
    (time : SpiralTime) (amplitude : ℚ) : SpiralScore :=
  if h : musician_idx < 4 then
    { s with notes := s.notes ++ [⟨time, s.musicians ⟨musician_idx, h⟩, amplitude, 0⟩] }
  else s

/-! ## flower_synthesis.rs: GrandSynthesis -/

/-- `struct GrandSynthesis` (`flower_synthesis.rs:112-118`). -/
structure GrandSynthesis where
  flower : FlowerOfLife
  loom : TimeWeavingLoom
  musician : PerfectMusician
  intent_engine : IntentEngine
  spiral_score : SpiralScore

/-- `GrandSynthesis::from_now` (`flower_synthesis.rs:122-130`). -/
def GrandSynthesis.from_now (present : Vec7) : GrandSynthesis :=
  { flower := FlowerOfLife.seed present
    loom := TimeWeavingLoom.new present
    musician := PerfectMusician.transcendent 7
    intent_engine := IntentEngine.new
    spiral_score := SpiralScore.quartet }

/-- The hard-coded forward thread of `synthesize_cycle`
(`flower_synthesis.rs:135`). -/
def git_thread : Vec7 := ![0.8, 0.7, 0.6, 0.5, 0.4, 0.3, 0.2]

/-- The hard-coded backward thread of `synthesize_cycle`
(`flower_synthesis.rs:136`). -/
def merc_thread : Vec7 := ![0.2, 0.3, 0.4, 0.5, 0.6, 0.7, 0.8]

/-- The `ReaderContext` built inside `synthesize_cycle`
(`flower_synthesis.rs:140-145`): the freshly woven vector as the soul, fixed
frequency `432`, the current (pre-accretion) kohanist level as the
understanding, fixed intent `0.618`. -/
def GrandSynthesis.cycleReader (rcos rsin : ℚ → ℚ) (g : GrandSynthesis) :
    ReaderContext :=
  { soul := (g.loom.weave rcos rsin git_thread merc_thread).2
    frequency := 432
    understanding := g.flower.kohanist_level
    intent := 0.618 }

/-- The truncation `[woven[0], ..., woven[4]]` of `synthesize_cycle`
(`flower_synthesis.rs:147`). -/
def truncate_to_five (v : Vec7) : Vec5 := fun i => v (Fin.castLE (by omega) i)

/-- `GrandSynthesis::synthesize_cycle` (`flower_synthesis.rs:133-169`),
returning the updated synthesis with the manifested vector. -/
def GrandSynthesis.synthesize_cycle (rcos rsin : ℚ → ℚ) (g : GrandSynthesis) :
    GrandSynthesis × Vec7 :=
  let loomWoven := g.loom.weave rcos rsin git_thread merc_thread
  let reader := g.cycleReader rcos rsin
  let code_hint := truncate_to_five loomWoven.2
  let interpreted := g.musician.interpret code_hint reader
  let intent := Intent.from_desire g.flower.kohanist_level interpreted
  let engineManifested := g.intent_engine.inspire intent
  let flower' := g.flower.add_petal engineManifested.2
  let time : SpiralTime :=
    { radius := loomWoven.1.orbital_radius
      angle := loomWoven.1.orbital_phase
      layer := flower'.petals.length % 4 }
  let score' := g.spiral_score.add_note 0 time flower'.kohanist_level
  ({ flower := flower'
     loom := loomWoven.1
     musician := g.musician
     intent_engine := engineManifested.1
     spiral_score := score' },
   engineManifested.2)

/-- `GrandSynthesis::has_transcended` (`flower_synthesis.rs:172-174`). -/
def GrandSynthesis.has_transcended (g : GrandSynthesis) : Bool :=
  g.flower.bloom_state = BloomState.FullBloom

/-- Iterated cycles from a fresh synthesis: `runCycles rcos rsin p n` is the
state after `n` calls of `synthesize_cycle` starting from
`GrandSynthesis.from_now p`. -/
def runCycles (rcos rsin : ℚ → ℚ) (present : Vec7) : ℕ → GrandSynthesis
  | 0 => GrandSynthesis.from_now present
  | n + 1 => ((runCycles rcos rsin present n).synthesize_cycle rcos rsin).1

/-! ## Derived definitions used by the statements -/

/-- The lifecycle stage determined by the spec's threshold table (§3), written
from the spec's words; the theorems below compare the stored stage against it. -/
def stageOfHarmony (h : ℚ) : BloomState :=
  if h < 0.3 then .Seed
  else if 0.3 ≤ h ∧ h < 0.6 then .Sprouting
  else if 0.6 ≤ h ∧ h < 0.9 then .Budding
  else if 0.9 ≤ h ∧ h < 0.98 then .Blooming
  else .FullBloom

/-- The 5-to-7 promotion of §3: direct positional copy of indices 0-4, index 5
the mean of the five components, index 6 one minus that mean. -/
def promote5to7 (hint : Vec5) : Vec7 := fun i =>
  if h : (i : ℕ) < 5 then hint ⟨i, h⟩
  else if (i : ℕ) = 5 then (∑ j, hint j) / 5
  else 1 - (∑ j, hint j) / 5

/-- Modelled from the spec's words for `interpret` (§4.2), which branch on
`preference ≥ 0.5`: promote the hint to seven components, blend with the
signature by the sensitivity weight, scale by the comprehension, then
golden-wrap when the preference is at least `0.5` and clamp otherwise. The
theorems below compare this against the source's `interpret`. -/
def interpret_spec_ge (m : PerfectMusician) (hint : Vec5)
    (context : ReaderContext) : Vec7 := fun i =>
  let blend := promote5to7 hint i * (1 - m.reader_sensitivity)
    + context.soul i * m.reader_sensitivity
  let scaled := blend * context.understanding
  if 0.5 ≤ context.intent then rustRem (scaled * 1.618034) 1
  else min scaled 1

/-- The spec's description of `interpret` (§4.2) amended at the boundary:
the golden-wrap branch is taken exactly when the preference is strictly
greater than `0.5`. -/
def interpret_spec_gt (m : PerfectMusician) (hint : Vec5)
    (context : ReaderContext) : Vec7 := fun i =>
  let blend := promote5to7 hint i * (1 - m.reader_sensitivity)
    + context.soul i * m.reader_sensitivity
  let scaled := blend * context.understanding
  if context.intent > 0.5 then rustRem (scaled * 1.618034) 1
  else min scaled 1

/-- The center `[0.5; 7]` of the end-to-end scenario. -/
def halfVec : Vec7 := fun _ => 0.5

/-- A petal that differs from `halfVec` only in the residual/void
component 6. -/
def voidPetal : Vec7 := fun i => if (i : ℕ) = 6 then 1 else 0.5

/-- The value every component of the manifested vector takes in a cycle of
the end-to-end scenario whose pre-cycle harmony is `k` (derived in
`cycle_step` below). -/
def manifestedValue (k : ℚ) : ℚ := 191/1000 + 249986253/500000000 * k ^ 2

/-! ## Helper lemmas -/

theorem rustRem_eq_self {x : ℚ} (h0 : 0 ≤ x) (h1 : x < 1) : rustRem x 1 = x := by
  have hf : ⌊x⌋ = 0 := Int.floor_eq_zero_iff.mpr ⟨h0, h1⟩
  simp [rustRem, ratTrunc, h0, hf]

theorem rustRem_mem_Ico {x m : ℚ} (hx : 0 ≤ x) (hm : 0 < m) :
    0 ≤ rustRem x m ∧ rustRem x m < m := by
  have hq : (0 : ℚ) ≤ x / m := div_nonneg hx hm.le
  have hfl : ((⌊x / m⌋ : ℚ)) * m ≤ x := by
    rw [← le_div_iff hm]
    exact Int.floor_le (x / m)
  have hfu : x < ((⌊x / m⌋ : ℚ) + 1) * m := by
    rw [← div_lt_iff hm]
    exact Int.lt_floor_add_one (x / m)
  unfold rustRem ratTrunc
  rw [if_pos hq]
  constructor <;> nlinarith

theorem bloomStateOf_seed {k : ℚ} : bloomStateOf k = .Seed ↔ k < 0.3 := by
  unfold bloomStateOf
  split_ifs <;> simp_all

theorem bloomStateOf_sprouting {k : ℚ} :
    bloomStateOf k = .Sprouting ↔ 0.3 ≤ k ∧ k < 0.6 := by
  unfold bloomStateOf
  split_ifs <;> simp_all [not_lt] <;>
    first
      | linarith
      | (intro hx ; linarith)
      | (constructor <;> linarith)

theorem bloomStateOf_budding {k : ℚ} :
    bloomStateOf k = .Budding ↔ 0.6 ≤ k ∧ k < 0.9 := by
  unfold bloomStateOf
  split_ifs <;> simp_all [not_lt] <;>
    first
      | linarith
      | (intro hx ; linarith)
      | (constructor <;> linarith)

theorem bloomStateOf_blooming {k : ℚ} :
    bloomStateOf k = .Blooming ↔ 0.9 ≤ k ∧ k < 0.98 := by
  unfold bloomStateOf
  split_ifs <;> simp_all [not_lt] <;>
    first
      | linarith
      | (intro hx ; linarith)
      | (constructor <;> linarith)

theorem bloomStateOf_fullbloom {k : ℚ} :
    bloomStateOf k = .FullBloom ↔ 0.98 ≤ k := by
  unfold bloomStateOf
  split_ifs <;> simp_all [not_lt] <;>
    first
      | linarith
      | (intro hx ; linarith)
      | (constructor <;> linarith)

theorem update_kohanist_petals (f : FlowerOfLife) :
    f.update_kohanist.petals = f.petals := by
  unfold FlowerOfLife.update_kohanist
  split <;> rfl

theorem update_kohanist_center (f : FlowerOfLife) :
    f.update_kohanist.center = f.center := by
  unfold FlowerOfLife.update_kohanist
  split <;> rfl

theorem add_petal_petals (f : FlowerOfLife) (t : Vec7) :
    (f.add_petal t).petals = f.petals ++ [t] := by
  unfold FlowerOfLife.add_petal
  rw [update_kohanist_petals]

theorem add_petal_kohanist (f : FlowerOfLife) (t : Vec7) :
    (f.add_petal t).kohanist_level
      = ((f.petals ++ [t]).map (petalContribution f.center)).sum
          / (f.petals.length + 1) := by
  unfold FlowerOfLife.add_petal FlowerOfLife.update_kohanist
  rw [if_neg (by simp)]
  simp

theorem add_petal_bloom (f : FlowerOfLife) (t : Vec7) :
    (f.add_petal t).bloom_state
      = bloomStateOf (f.add_petal t).kohanist_level := by
  unfold FlowerOfLife.add_petal FlowerOfLife.update_kohanist
  rw [if_neg (by simp)]

theorem list_mean_bounds {l : List ℚ} {a b : ℚ} (hne : l ≠ [])
    (h : ∀ x ∈ l, a ≤ x ∧ x ≤ b) :
    a ≤ l.sum / l.length ∧ l.sum / l.length ≤ b := by
  have hlen : 0 < (l.length : ℚ) := by
    exact_mod_cast List.length_pos.mpr hne
  have h1 : l.length • a ≤ l.sum :=
    List.card_nsmul_le_sum l a fun x hx => (h x hx).1
  have h2 : l.sum ≤ l.length • b :=
    List.sum_le_card_nsmul l b fun x hx => (h x hx).2
  rw [nsmul_eq_mul] at h1 h2
  constructor
  · rw [le_div_iff hlen] ; linarith
  · rw [div_le_iff hlen] ; linarith

theorem petalContribution_bounds {center petal : Vec7}
    (h : ∀ i, |petal i - center i| ≤ 309/1000) :
    691/1000 ≤ petalContribution center petal
      ∧ petalContribution center petal ≤ 1 := by
  unfold petalContribution
  have hlow : (∑ _i : Fin 7, (691/1000 : ℚ)) ≤ ∑ i, (1 - |petal i - center i|) :=
    Finset.sum_le_sum fun i _ => by have := h i ; linarith
  have hhigh : (∑ i, (1 - |petal i - center i|)) ≤ ∑ _i : Fin 7, (1 : ℚ) :=
    Finset.sum_le_sum fun i _ => by
      have := abs_nonneg (petal i - center i) ; linarith
  simp only [Finset.sum_const, Finset.card_univ, Fintype.card_fin,
    nsmul_eq_mul] at hlow hhigh
  push_cast at hlow hhigh
  constructor
  · rw [le_div_iff (by norm_num : (0:ℚ) < 7)] ; linarith
  · rw [div_le_iff (by norm_num : (0:ℚ) < 7)] ; linarith

theorem weave_snd_radius_one (rcos rsin : ℚ → ℚ) (L : TimeWeavingLoom)
    (f b : Vec7) (hr : L.orbital_radius = 1) :
    (L.weave rcos rsin f b).2 = L.present_gravity := by
  funext i
  simp only [TimeWeavingLoom.weave, hr]
  ring

theorem weave_fst_radius (rcos rsin : ℚ → ℚ) (L : TimeWeavingLoom)
    (f b : Vec7) :
    (L.weave rcos rsin f b).1.orbital_radius = L.orbital_radius := rfl

theorem weave_fst_gravity (rcos rsin : ℚ → ℚ) (L : TimeWeavingLoom)
    (f b : Vec7) :
    (L.weave rcos rsin f b).1.present_gravity = L.present_gravity := rfl

theorem cycle_loom_radius (rcos rsin : ℚ → ℚ) (g : GrandSynthesis) :
    (g.synthesize_cycle rcos rsin).1.loom.orbital_radius
      = g.loom.orbital_radius := rfl

theorem cycle_loom_gravity (rcos rsin : ℚ → ℚ) (g : GrandSynthesis) :
    (g.synthesize_cycle rcos rsin).1.loom.present_gravity
      = g.loom.present_gravity := rfl

theorem cycle_musician (rcos rsin : ℚ → ℚ) (g : GrandSynthesis) :
    (g.synthesize_cycle rcos rsin).1.musician = g.musician := rfl

theorem runCycles_loom_inv (rcos rsin : ℚ → ℚ) (p : Vec7) (n : ℕ) :
    (runCycles rcos rsin p n).loom.orbital_radius = 1
      ∧ (runCycles rcos rsin p n).loom.present_gravity = p := by
  induction n with
  | zero => exact ⟨rfl, rfl⟩
  | succ n ih =>
      refine ⟨?_, ?_⟩
      · rw [runCycles, cycle_loom_radius] ; exact ih.1
      · rw [runCycles, cycle_loom_gravity] ; exact ih.2

theorem interpret_apply (m : PerfectMusician) (code_hint : Vec5)
    (reader : ReaderContext) (i : Fin 7) :
    m.interpret code_hint reader i =
      (if reader.intent > 0.5 then
        rustRem (((if h : (i : ℕ) < 5 then code_hint ⟨i, h⟩
            else if (i : ℕ) = 5 then (∑ j, code_hint j) / 5
            else 1 - (∑ j, code_hint j) / 5) * (1 - m.reader_sensitivity)
          + reader.soul i * m.reader_sensitivity) * reader.understanding
          * 1.618034) 1
      else
        min (((if h : (i : ℕ) < 5 then code_hint ⟨i, h⟩
            else if (i : ℕ) = 5 then (∑ j, code_hint j) / 5
            else 1 - (∑ j, code_hint j) / 5) * (1 - m.reader_sensitivity)
          + reader.soul i * m.reader_sensitivity) * reader.understanding) 1) :=
  rfl

theorem interpret_half_scenario (k : ℚ) (h0 : 0 ≤ k) (h1 : k ≤ 1) :
    (PerfectMusician.transcendent 7).interpret (fun _ => 0.5)
      { soul := fun _ => 0.5, frequency := 432, understanding := k,
        intent := 0.618 }
      = fun _ => 809017/1000000 * k := by
  funext i
  rw [interpret_apply]
  have hsum : (∑ _j : Fin 5, (0.5 : ℚ)) = 5 / 2 := by
    simp [Finset.sum_const, Finset.card_univ]
    norm_num
  have hbase : (if h : (i : ℕ) < 5 then (fun _ : Fin 5 => (0.5:ℚ)) ⟨i, h⟩
      else if (i : ℕ) = 5 then (∑ j : Fin 5, (0.5:ℚ)) / 5
      else 1 - (∑ j : Fin 5, (0.5:ℚ)) / 5) = 0.5 := by
    split_ifs <;> first | rfl | (rw [hsum] ; norm_num)
  simp only [hbase]
  rw [if_pos (by norm_num : (0.618 : ℚ) > 0.5)]
  have harg : ((0.5 * (1 - (PerfectMusician.transcendent 7).reader_sensitivity)
      + 0.5 * (PerfectMusician.transcendent 7).reader_sensitivity) * k
      * 1.618034 : ℚ) = 809017/1000000 * k := by
    simp only [PerfectMusician.transcendent]
    ring
  rw [harg, rustRem_eq_self (by linarith) (by linarith)]

theorem inspire_fst (e : IntentEngine) (it : Intent) :
    (e.inspire it).1
      = if it.manifest e.receptivity > e.manifestation_threshold then
          { e with universe_state := (e.inspire it).2 }
        else e := rfl

theorem inspire_snd (e : IntentEngine) (it : Intent) :
    (e.inspire it).2
      = fun i => e.universe_state i * (1 - it.resonance)
          + (it.vector i * it.desire) * it.resonance := rfl

theorem inspire_scenario (k : ℚ) (h1 : k ≤ 1) (v : Vec7) :
    (IntentEngine.new.inspire (Intent.from_desire k v)).1 = IntentEngine.new
      ∧ (IntentEngine.new.inspire (Intent.from_desire k v)).2
          = fun i => 191/1000 + v i * k * (309/500) := by
  constructor
  · rw [inspire_fst, if_neg]
    simp only [Intent.manifest, Intent.from_desire, IntentEngine.new, not_lt]
    nlinarith
  · rw [inspire_snd]
    funext i
    simp only [Intent.from_desire, IntentEngine.new]
    norm_num

theorem manifestedValue_bound (k : ℚ) (h0 : 0 ≤ k) (h1 : k ≤ 1) :
    |manifestedValue k - 0.5| ≤ 309/1000 := by
  have hk2 : k ^ 2 ≤ 1 := by nlinarith
  have hk0 : 0 ≤ k ^ 2 := sq_nonneg k
  rw [abs_le]
  unfold manifestedValue
  constructor <;> nlinarith

theorem synthesize_cycle_snd (rcos rsin : ℚ → ℚ) (g : GrandSynthesis) :
    (g.synthesize_cycle rcos rsin).2
      = (g.intent_engine.inspire (Intent.from_desire g.flower.kohanist_level
          (g.musician.interpret
            (truncate_to_five (g.loom.weave rcos rsin git_thread merc_thread).2)
            (g.cycleReader rcos rsin)))).2 := rfl

theorem synthesize_cycle_flower (rcos rsin : ℚ → ℚ) (g : GrandSynthesis) :
    (g.synthesize_cycle rcos rsin).1.flower
      = g.flower.add_petal (g.synthesize_cycle rcos rsin).2 := rfl

theorem synthesize_cycle_engine (rcos rsin : ℚ → ℚ) (g : GrandSynthesis) :
    (g.synthesize_cycle rcos rsin).1.intent_engine
      = (g.intent_engine.inspire (Intent.from_desire g.flower.kohanist_level
          (g.musician.interpret
            (truncate_to_five (g.loom.weave rcos rsin git_thread merc_thread).2)
            (g.cycleReader rcos rsin)))).1 := rfl

theorem cycle_step (rcos rsin : ℚ → ℚ) (g : GrandSynthesis)
    (hr : g.loom.orbital_radius = 1) (hg : g.loom.present_gravity = halfVec)
    (hm : g.musician = PerfectMusician.transcendent 7)
    (he : g.intent_engine = IntentEngine.new)
    (h0 : 0 ≤ g.flower.kohanist_level) (h1 : g.flower.kohanist_level ≤ 1) :
    (g.synthesize_cycle rcos rsin).2
        = (fun _ => manifestedValue g.flower.kohanist_level)
      ∧ (g.synthesize_cycle rcos rsin).1.flower
          = g.flower.add_petal (fun _ => manifestedValue g.flower.kohanist_level)
      ∧ (g.synthesize_cycle rcos rsin).1.intent_engine = IntentEngine.new := by
  have hwoven : (g.loom.weave rcos rsin git_thread merc_thread).2 = halfVec := by
    rw [weave_snd_radius_one rcos rsin g.loom git_thread merc_thread hr, hg]
  have hhint : truncate_to_five (g.loom.weave rcos rsin git_thread merc_thread).2
      = (fun _ => 0.5) := by
    rw [hwoven] ; rfl
  have hreader : g.cycleReader rcos rsin
      = { soul := fun _ => 0.5, frequency := 432,
          understanding := g.flower.kohanist_level, intent := 0.618 } := by
    unfold GrandSynthesis.cycleReader
    rw [hwoven]
    rfl
  have hinterp : g.musician.interpret
      (truncate_to_five (g.loom.weave rcos rsin git_thread merc_thread).2)
      (g.cycleReader rcos rsin)
      = fun _ => 809017/1000000 * g.flower.kohanist_level := by
    rw [hm, hhint, hreader, interpret_half_scenario g.flower.kohanist_level h0 h1]
  have hsnd : (g.synthesize_cycle rcos rsin).2
      = (fun _ => manifestedValue g.flower.kohanist_level) := by
    rw [synthesize_cycle_snd, hinterp, he,
      (inspire_scenario g.flower.kohanist_level h1 _).2]
    funext i
    unfold manifestedValue
    ring
  refine ⟨hsnd, ?_, ?_⟩
  · rw [synthesize_cycle_flower, hsnd]
  · rw [synthesize_cycle_engine, hinterp, he,
      (inspire_scenario g.flower.kohanist_level h1 _).1]

theorem add_petal_good (f : FlowerOfLife) (t : Vec7)
    (hc : f.center = halfVec)
    (hall : ∀ p ∈ f.petals, ∀ i, |p i - 0.5| ≤ 309/1000)
    (ht : ∀ i, |t i - 0.5| ≤ 309/1000) :
    691/1000 ≤ (f.add_petal t).kohanist_level
      ∧ (f.add_petal t).kohanist_level ≤ 1
      ∧ (∀ p ∈ (f.add_petal t).petals, ∀ i, |p i - 0.5| ≤ 309/1000) := by
  have hmem : ∀ x ∈ (f.petals ++ [t]).map (petalContribution f.center),
      691/1000 ≤ x ∧ x ≤ 1 := by
    intro x hx
    obtain ⟨p, hp, rfl⟩ := List.mem_map.mp hx
    refine petalContribution_bounds fun i => ?_
    have hcen : f.center i = 0.5 := by rw [hc] ; rfl
    rw [hcen]
    rcases List.mem_append.mp hp with h | h
    · exact hall p h i
    · rw [List.mem_singleton.mp h] ; exact ht i
  have hne : (f.petals ++ [t]).map (petalContribution f.center) ≠ [] := by simp
  have hmean := list_mean_bounds hne hmem
  have hlen : ((((f.petals ++ [t]).map (petalContribution f.center)).length : ℕ) : ℚ)
      = (f.petals.length : ℚ) + 1 := by
    simp
  rw [hlen] at hmean
  have hk := add_petal_kohanist f t
  refine ⟨?_, ?_, ?_⟩
  · rw [hk] ; exact hmean.1
  · rw [hk] ; exact hmean.2
  · rw [add_petal_petals]
    intro p hp i
    rcases List.mem_append.mp hp with h | h
    · exact hall p h i
    · rw [List.mem_singleton.mp h] ; exact ht i

theorem runCycles_inv (rcos rsin : ℚ → ℚ) (n : ℕ) :
    (runCycles rcos rsin halfVec n).musician = PerfectMusician.transcendent 7
      ∧ (runCycles rcos rsin halfVec n).intent_engine = IntentEngine.new
      ∧ (runCycles rcos rsin halfVec n).flower.center = halfVec
      ∧ 0 ≤ (runCycles rcos rsin halfVec n).flower.kohanist_level
      ∧ (runCycles rcos rsin halfVec n).flower.kohanist_level ≤ 1
      ∧ (∀ p ∈ (runCycles rcos rsin halfVec n).flower.petals,
          ∀ i, |p i - 0.5| ≤ 309/1000)
      ∧ (n ≠ 0 →
          691/1000 ≤ (runCycles rcos rsin halfVec n).flower.kohanist_level
            ∧ (runCycles rcos rsin halfVec n).flower.bloom_state
                = bloomStateOf (runCycles rcos rsin halfVec n).flower.kohanist_level) := by
  induction n with
  | zero =>
      refine ⟨rfl, rfl, rfl, le_refl 0, by show (0:ℚ) ≤ 1 ; norm_num, ?_, ?_⟩
      · intro p hp
        simp [runCycles, GrandSynthesis.from_now, FlowerOfLife.seed] at hp
      · intro h ; exact absurd rfl h
  | succ n ih =>
      obtain ⟨hm, he, hc, h0, h1, hall, _⟩ := ih
      obtain ⟨hr, hg⟩ := runCycles_loom_inv rcos rsin halfVec n
      obtain ⟨hsnd, hflower, hengine⟩ :=
        cycle_step rcos rsin (runCycles rcos rsin halfVec n) hr hg hm he h0 h1
      have hmv : ∀ i : Fin 7,
          |(fun _ : Fin 7 => manifestedValue
              (runCycles rcos rsin halfVec n).flower.kohanist_level) i - 0.5|
            ≤ 309/1000 :=
        fun _ => manifestedValue_bound _ h0 h1
      obtain ⟨hk1, hk2, hall'⟩ :=
        add_petal_good (runCycles rcos rsin halfVec n).flower _ hc hall hmv
      have hflower' : (runCycles rcos rsin halfVec (n + 1)).flower
          = (runCycles rcos rsin halfVec n).flower.add_petal
              (fun _ => manifestedValue
                (runCycles rcos rsin halfVec n).flower.kohanist_level) := by
    
        rw [runCycles] ; exact hflower
      refine ⟨?_, ?_, ?_, ?_, ?_, ?_, ?_⟩
      · rw [runCycles, cycle_musician] ; exact hm
      · rw [runCycles] ; exact hengine
      · rw [hflower']
        unfold FlowerOfLife.add_petal
        rw [update_kohanist_center]
        exact hc
      · rw [hflower'] ; linarith
      · rw [hflower'] ; exact hk2
      · rw [hflower'] ; exact hall'
      · intro _
        rw [hflower']
        exact ⟨hk1, add_petal_bloom _ _⟩

/-! ## The claims -/

/-- C1: each call of the orchestrator's per-cycle operation performs exactly
the fixed sequence weave → truncate to five → reinterpret under the observer
context → build an intent via `Intent::from_desire` whose desire scalar is
the aggregate harmony read before this cycle's accretion and whose direction
is the reinterpreted vector → `inspire` → append the manifested vector to
the accretion history → return the manifested vector. -/
theorem synthesize_cycle_pipeline :
    ∀ (rcos rsin : ℚ → ℚ) (g : GrandSynthesis),
      (g.synthesize_cycle rcos rsin).2
          = (g.intent_engine.inspire (Intent.from_desire g.flower.kohanist_level
              (g.musician.interpret
                (truncate_to_five (g.loom.weave rcos rsin git_thread merc_thread).2)
                (g.cycleReader rcos rsin)))).2
        ∧ (∀ (v : Vec7) (i : Fin 5), truncate_to_five v i = v (Fin.castLE (by omega) i))
        ∧ (∀ (d : ℚ) (dir : Vec7),
            (Intent.from_desire d dir).desire = d
              ∧ (Intent.from_desire d dir).vector = dir)
        ∧ (g.synthesize_cycle rcos rsin).1.loom
            = (g.loom.weave rcos rsin git_thread merc_thread).1
        ∧ (g.synthesize_cycle rcos rsin).1.intent_engine
            = (g.intent_engine.inspire (Intent.from_desire g.flower.kohanist_level
                (g.musician.interpret
                  (truncate_to_five (g.loom.weave rcos rsin git_thread merc_thread).2)
                  (g.cycleReader rcos rsin)))).1
        ∧ (g.synthesize_cycle rcos rsin).1.flower
            = g.flower.add_petal (g.synthesize_cycle rcos rsin).2
        ∧ (g.synthesize_cycle rcos rsin).1.flower.petals
            = g.flower.petals ++ [(g.synthesize_cycle rcos rsin).2] := by
  intro rcos rsin g
  refine ⟨rfl, fun v i => rfl, fun d dir => ⟨rfl, rfl⟩, rfl, rfl, rfl, ?_⟩
  rw [synthesize_cycle_flower, add_petal_petals]

/-- C2: the derived lifecycle stage is exactly one of the five stages with no
gaps or overlaps (Seed iff `h < 0.3`, Sprouting iff `0.3 ≤ h < 0.6`, Budding
iff `0.6 ≤ h < 0.9`, Blooming iff `0.9 ≤ h < 0.98`, FullBloom iff
`h ≥ 0.98`), the boundary values map to Sprouting, Budding, Blooming and
FullBloom respectively, and after every add the stored stage is the one
recomputed from the current harmony value alone. -/
theorem lifecycle_stage_thresholds :
    (∀ k : ℚ,
        (bloomStateOf k = .Seed ↔ k < 0.3)
      ∧ (bloomStateOf k = .Sprouting ↔ 0.3 ≤ k ∧ k < 0.6)
      ∧ (bloomStateOf k = .Budding ↔ 0.6 ≤ k ∧ k < 0.9)
      ∧ (bloomStateOf k = .Blooming ↔ 0.9 ≤ k ∧ k < 0.98)
      ∧ (bloomStateOf k = .FullBloom ↔ 0.98 ≤ k))
    ∧ (bloomStateOf 0 = .Seed ∧ bloomStateOf 0.3 = .Sprouting
        ∧ bloomStateOf 0.6 = .Budding ∧ bloomStateOf 0.9 = .Blooming
        ∧ bloomStateOf 0.98 = .FullBloom ∧ bloomStateOf 1 = .FullBloom)
    ∧ (∀ (f : FlowerOfLife) (t : Vec7),
        (f.add_petal t).bloom_state
          = bloomStateOf (f.add_petal t).kohanist_level)
    ∧ (∀ k : ℚ, bloomStateOf k = stageOfHarmony k) := by
  refine ⟨fun k => ⟨bloomStateOf_seed, bloomStateOf_sprouting, bloomStateOf_budding,
      bloomStateOf_blooming, bloomStateOf_fullbloom⟩, ?_, add_petal_bloom, ?_⟩
  · exact ⟨bloomStateOf_seed.mpr (by norm_num),
      bloomStateOf_sprouting.mpr (by norm_num),
      bloomStateOf_budding.mpr (by norm_num),
      bloomStateOf_blooming.mpr (by norm_num),
      bloomStateOf_fullbloom.mpr (by norm_num),
      bloomStateOf_fullbloom.mpr (by norm_num)⟩
  · intro k
    unfold bloomStateOf stageOfHarmony
    split_ifs <;> first | rfl | (exfalso ; simp_all [not_lt] <;> linarith)

/-- C3: after every append the aggregate harmony is the mean over the whole
history of the per-petal contribution, each contribution being the mean over
all seven components (the residual/void component 6 included) of
`1 - |petal[i] - center[i]|`; consequently changing only component 6 of a
petal changes the resulting harmony. -/
theorem harmony_mean_includes_void :
    (∀ (f : FlowerOfLife) (t : Vec7),
        (f.add_petal t).kohanist_level
          = ((f.petals ++ [t]).map (petalContribution f.center)).sum
              / (f.petals.length + 1))
    ∧ (∀ center petal : Vec7,
        petalContribution center petal
          = (∑ i, (1 - |petal i - center i|)) / 7)
    ∧ ((FlowerOfLife.seed halfVec).add_petal halfVec).kohanist_level = 1
    ∧ ((FlowerOfLife.seed halfVec).add_petal voidPetal).kohanist_level = 13/14
    ∧ (∀ i : Fin 7, (i : ℕ) ≠ 6 → halfVec i = voidPetal i)
    ∧ halfVec 6 ≠ voidPetal 6
    ∧ ((FlowerOfLife.seed halfVec).add_petal halfVec).kohanist_level
        ≠ ((FlowerOfLife.seed halfVec).add_petal voidPetal).kohanist_level := by
  have h1 : ((FlowerOfLife.seed halfVec).add_petal halfVec).kohanist_level = 1 := by
    rw [add_petal_kohanist]
    simp [FlowerOfLife.seed, petalContribution, halfVec]
  have h2 : ((FlowerOfLife.seed halfVec).add_petal voidPetal).kohanist_level
      = 13/14 := by
    rw [add_petal_kohanist]
    simp [FlowerOfLife.seed, petalContribution, halfVec, voidPetal,
      Fin.sum_univ_seven, show ((0 : Fin 7) : ℕ) = 0 from rfl,
      show ((1 : Fin 7) : ℕ) = 1 from rfl, show ((2 : Fin 7) : ℕ) = 2 from rfl,
      show ((3 : Fin 7) : ℕ) = 3 from rfl, show ((4 : Fin 7) : ℕ) = 4 from rfl,
      show ((5 : Fin 7) : ℕ) = 5 from rfl, show ((6 : Fin 7) : ℕ) = 6 from rfl]
    rw [show |(1 - 0.5 : ℚ)| = 1/2 from by rw [abs_of_pos] <;> norm_num]
    norm_num
  refine ⟨fun f t => add_petal_kohanist f t, fun c p => rfl, h1, h2, ?_, ?_, ?_⟩
  · intro i hi
    unfold halfVec voidPetal
    rw [if_neg hi]
  · unfold halfVec voidPetal
    norm_num [show ((6 : Fin 7) : ℕ) = 6 from rfl]
  · rw [h1, h2] ; norm_num

/-- C4: `inspire` mutates the ambient universe state if and only if
`power = desire * clarity * resonance * receptivity` strictly exceeds the
manifestation threshold, overwriting it exactly with the computed candidate;
the intent with desire = clarity = resonance = 0.5 under receptivity 0.618
(power 0.07725) leaves the state unchanged, while desire = clarity =
resonance = 1 under receptivity 1 overwrites the state with the candidate,
which then equals the intent's direction vector. -/
theorem inspire_commit_gating :
    (∀ (e : IntentEngine) (it : Intent),
        (e.inspire it).1
          = if it.manifest e.receptivity > e.manifestation_threshold then
              { e with universe_state := (e.inspire it).2 }
            else e)
    ∧ (∀ (e : IntentEngine) (it : Intent),
        it.manifest e.receptivity
          = it.desire * it.clarity * it.resonance * e.receptivity)
    ∧ IntentEngine.new.receptivity = 0.618
    ∧ IntentEngine.new.manifestation_threshold = 0.8
    ∧ (∀ v : Vec7,
        ({ desire := 0.5, clarity := 0.5, resonance := 0.5, vector := v } : Intent).manifest
            IntentEngine.new.receptivity = 309/4000)
    ∧ ¬ ((309/4000 : ℚ) > 0.8)
    ∧ (∀ v : Vec7,
        (IntentEngine.new.inspire
            { desire := 0.5, clarity := 0.5, resonance := 0.5, vector := v }).1
          = IntentEngine.new)
    ∧ (∀ v : Vec7,
        (({ IntentEngine.new with receptivity := 1 } : IntentEngine).inspire
            { desire := 1, clarity := 1, resonance := 1, vector := v }).1
          = { ({ IntentEngine.new with receptivity := 1 } : IntentEngine) with
              universe_state :=
                (({ IntentEngine.new with receptivity := 1 } : IntentEngine).inspire
                  { desire := 1, clarity := 1, resonance := 1, vector := v }).2 }
        ∧ (({ IntentEngine.new with receptivity := 1 } : IntentEngine).inspire
            { desire := 1, clarity := 1, resonance := 1, vector := v }).2 = v) := by
  refine ⟨fun e it => inspire_fst e it, fun e it => rfl, rfl, rfl, ?_, by norm_num, ?_, ?_⟩
  · intro v
    simp only [Intent.manifest, IntentEngine.new]
    norm_num
  · intro v
    rw [inspire_fst, if_neg]
    simp only [Intent.manifest, IntentEngine.new, not_lt]
    norm_num
  · intro v
    constructor
    · rw [inspire_fst, if_pos]
      simp only [Intent.manifest, IntentEngine.new]
      norm_num
    · rw [inspire_snd]
      funext i
      simp only [IntentEngine.new]
      norm_num

/-- C5: `inspire` always returns the candidate
`candidate[i] = ambient[i]*(1 - resonance) + direction[i]*desire*resonance`,
and the returned value is the same whether or not the threshold-gated commit
occurred (it does not depend on the manifestation threshold at all). -/
theorem inspire_return_candidate :
    (∀ (e : IntentEngine) (it : Intent),
        (e.inspire it).2
          = fun i => e.universe_state i * (1 - it.resonance)
              + (it.vector i * it.desire) * it.resonance)
    ∧ (∀ (e : IntentEngine) (it : Intent) (threshold : ℚ),
        (({ e with manifestation_threshold := threshold } : IntentEngine).inspire it).2
          = (e.inspire it).2) :=
  ⟨fun e it => inspire_snd e it, fun e it threshold => rfl⟩

/-- C6 (counterexample): at preference exactly `0.5` the code clamps
(`interpret` takes the golden-wrap branch only for preference `> 0.5`),
while the claim's `≥ 0.5` reading predicts the golden-wrap value
`0.618034`; on an all-ones hint and signature with comprehension `1` the
two disagree at component 0. -/
theorem interpret_boundary_counterexample :
    (PerfectMusician.transcendent 7).interpret (fun _ => 1)
        { soul := fun _ => 1, frequency := 432, understanding := 1,
          intent := 0.5 } 0 = 1
    ∧ interpret_spec_ge (PerfectMusician.transcendent 7) (fun _ => 1)
        { soul := fun _ => 1, frequency := 432, understanding := 1,
          intent := 0.5 } 0 = 309017/500000
    ∧ (1 : ℚ) ≠ 309017/500000 := by
  refine ⟨?_, ?_, by norm_num⟩
  · rw [interpret_apply]
    rw [if_neg (by norm_num : ¬ ((0.5 : ℚ) > 0.5))]
    rw [dif_pos (by norm_num : ((0 : Fin 7) : ℕ) < 5)]
    simp only [PerfectMusician.transcendent]
    norm_num
  · unfold interpret_spec_ge promote5to7
    rw [if_pos (le_refl (0.5 : ℚ)), dif_pos (by norm_num : ((0 : Fin 7) : ℕ) < 5)]
    simp only [PerfectMusician.transcendent]
    have harg : (((1 : ℚ) * (1 - 0.5) + 1 * 0.5) * 1 * 1.618034 : ℚ)
        = 809017/500000 := by norm_num
    rw [harg]
    have hfl : ⌊(809017/500000 : ℚ) / 1⌋ = 1 := by
      rw [div_one, Int.floor_eq_iff] <;> norm_num
    unfold rustRem ratTrunc
    rw [if_pos (by norm_num : (0:ℚ) ≤ (809017/500000 : ℚ) / 1), hfl]
    norm_num

/-- C6 (amended): `interpret` promotes the 5-hint to seven components, blends
with the signature by the fixed sensitivity, scales by the comprehension,
and branches on the preference with the golden-wrap branch taken exactly
when the preference is strictly greater than `0.5` (at `0.5` it clamps); the
wrap keeps nonnegative inputs in `[0, 1)`. -/
theorem interpret_matches_spec_strict :
    (∀ (m : PerfectMusician) (hint : Vec5) (context : ReaderContext),
        m.interpret hint context = interpret_spec_gt m hint context)
    ∧ (∀ (hint : Vec5) (i : Fin 7),
        promote5to7 hint i
          = if h : (i : ℕ) < 5 then hint ⟨i, h⟩
            else if (i : ℕ) = 5 then (∑ j, hint j) / 5
            else 1 - (∑ j, hint j) / 5)
    ∧ (∀ (m : PerfectMusician) (hint : Vec5) (context : ReaderContext) (i : Fin 7),
        ¬ context.intent > 0.5 →
          m.interpret hint context i
            = min ((promote5to7 hint i * (1 - m.reader_sensitivity)
                + context.soul i * m.reader_sensitivity)
                  * context.understanding) 1)
    ∧ (∀ x : ℚ, 0 ≤ x → 0 ≤ rustRem x 1 ∧ rustRem x 1 < 1) := by
  refine ⟨fun m hint context => rfl, fun hint i => rfl, ?_, ?_⟩
  · intro m hint context i h
    rw [interpret_apply, if_neg h]
    rfl
  · intro x hx
    exact rustRem_mem_Ico hx one_pos

/-- C7 (counterexample): the weave phase update wraps modulo the code's
constant `2 * 3.14159 = 6.28318`, not modulo `2π`: from phase `6.2` the next
phase is `6.3 - 6.28318 = 841/50000`, while the true reduction of `6.3`
modulo `2π` is `6.3 - 2π` (the representative in `[0, 2π)`), and the two
differ. -/
theorem weave_phase_not_mod_two_pi :
    (({ TimeWeavingLoom.new halfVec with orbital_phase := 6.2 } : TimeWeavingLoom).weave
        (fun _ => 0) (fun _ => 0) halfVec halfVec).1.orbital_phase = 841/50000
    ∧ 2 * Real.pi ≤ 6.2 + 0.1 ∧ (6.2 + 0.1 : ℝ) < 2 * Real.pi + 2 * Real.pi
    ∧ ((841/50000 : ℝ) ≠ (6.2 + 0.1) - 2 * Real.pi) := by
  have hpi1 := Real.pi_gt_3141592
  have hpi2 := Real.pi_lt_315
  refine ⟨?_, by linarith, by linarith, ?_⟩
  · show rustRem ((6.2 : ℚ) + 0.1) (2 * 3.14159) = 841/50000
    unfold rustRem ratTrunc
    have hq : (0 : ℚ) ≤ (6.2 + 0.1) / (2 * 3.14159) := by norm_num
    have hfl : ⌊((6.2 + 0.1 : ℚ)) / (2 * 3.14159)⌋ = 1 := by
      rw [Int.floor_eq_iff] <;> norm_num
    rw [if_pos hq, hfl]
    norm_num
  · intro h
    have : Real.pi = 3.14159 := by linarith
    linarith

/-- C7 (amended): `weave` returns, for each component,
`((forward[i]*(1+cos φ) + backward[i]*(1+sin φ))/2)*(1 - 1/radius) +
center[i]*(1/radius)`, appends that result to the pattern history, and
advances the phase by the fixed step `0.1` wrapped modulo the code's circle
constant `2 * 3.14159 = 6.28318`; since that constant is strictly below
`2π`, a nonnegative phase always stays in `[0, 6.28318) ⊆ [0, 2π)`; the
operation is total. -/
theorem weave_formula_phase_wrap :
    (∀ (rcos rsin : ℚ → ℚ) (L : TimeWeavingLoom) (f b : Vec7) (i : Fin 7),
        (L.weave rcos rsin f b).2 i
          = (f i * (1 + rcos L.orbital_phase) + b i * (1 + rsin L.orbital_phase)) / 2
              * (1 - 1 / L.orbital_radius)
            + L.present_gravity i * (1 / L.orbital_radius))
    ∧ (∀ (rcos rsin : ℚ → ℚ) (L : TimeWeavingLoom) (f b : Vec7),
        (L.weave rcos rsin f b).1.weave_pattern
          = L.weave_pattern ++ [(L.weave rcos rsin f b).2])
    ∧ (∀ (rcos rsin : ℚ → ℚ) (L : TimeWeavingLoom) (f b : Vec7),
        (L.weave rcos rsin f b).1.orbital_phase
          = rustRem (L.orbital_phase + 0.1) (2 * 3.14159))
    ∧ (∀ (rcos rsin : ℚ → ℚ) (L : TimeWeavingLoom) (f b : Vec7),
        0 ≤ L.orbital_phase →
          0 ≤ (L.weave rcos rsin f b).1.orbital_phase
            ∧ (L.weave rcos rsin f b).1.orbital_phase < 2 * 3.14159)
    ∧ ((2 * 3.14159 : ℝ) < 2 * Real.pi) := by
  refine ⟨fun rcos rsin L f b i => rfl, fun rcos rsin L f b => rfl,
    fun rcos rsin L f b => rfl, ?_, ?_⟩
  · intro rcos rsin L f b h
    exact rustRem_mem_Ico (by linarith) (by norm_num)
  · have := Real.pi_gt_3141592
    norm_num
    linarith

/-- C8 (counterexample): the orchestrator does not run its cycles under an
observer context with comprehension `0.8`; the context it builds has
comprehension equal to the current (pre-cycle) aggregate harmony, which on
the freshly constructed orchestrator is `0`, not `0.8`. -/
theorem cycle_context_not_fixed_comprehension :
    ((GrandSynthesis.from_now halfVec).cycleReader (fun _ => 0) (fun _ => 0)).understanding = 0
    ∧ ((0 : ℚ) ≠ 0.8)
    ∧ (∀ (rcos rsin : ℚ → ℚ) (g : GrandSynthesis),
        (g.cycleReader rcos rsin).understanding = g.flower.kohanist_level) :=
  ⟨rfl, by norm_num, fun rcos rsin g => rfl⟩

/-- C8 (amended): starting from a freshly constructed orchestrator with
center `[0.5; 7]` and running exactly 50 cycles (the forward and backward
threads, the signature, and the preference `0.618` are as the claim states;
the comprehension is the code's own pre-cycle harmony rather than `0.8`),
the final harmony exceeds `0.3` and the stage is strictly past Seed; the
result holds for every interpretation of the trigonometric functions. -/
theorem fifty_cycles_past_seed :
    ∀ rcos rsin : ℚ → ℚ,
      0.3 < (runCycles rcos rsin halfVec 50).flower.kohanist_level
        ∧ (runCycles rcos rsin halfVec 50).flower.bloom_state ≠ BloomState.Seed := by
  intro rcos rsin
  obtain ⟨-, -, -, -, -, -, hlast⟩ := runCycles_inv rcos rsin 50
  obtain ⟨hk, hb⟩ := hlast (by norm_num)
  refine ⟨by linarith, ?_⟩
  rw [hb]
  intro hseed
  have := bloomStateOf_seed.mp hseed
  linarith

/-- C9: at orbital radius `1` the woven vector is exactly the gravity-center
vector (the woven-average weight `1 - 1/radius` vanishes); construction
initializes the radius to `1`, the per-cycle orchestration preserves the
loom's radius and gravity center, and hence the woven vector of every
orchestrated cycle equals the fixed present center, independent of the
forward and backward threads. -/
theorem weave_radius_one_gravity :
    (∀ (rcos rsin : ℚ → ℚ) (L : TimeWeavingLoom) (f b : Vec7),
        L.orbital_radius = 1 → (L.weave rcos rsin f b).2 = L.present_gravity)
    ∧ (∀ p : Vec7, (GrandSynthesis.from_now p).loom.orbital_radius = 1)
    ∧ (∀ (rcos rsin : ℚ → ℚ) (g : GrandSynthesis),
        (g.synthesize_cycle rcos rsin).1.loom.orbital_radius
            = g.loom.orbital_radius
          ∧ (g.synthesize_cycle rcos rsin).1.loom.present_gravity
              = g.loom.present_gravity)
    ∧ (∀ (rcos rsin : ℚ → ℚ) (p : Vec7) (n : ℕ),
        (runCycles rcos rsin p n).loom.orbital_radius = 1
          ∧ ((runCycles rcos rsin p n).loom.weave rcos rsin
              git_thread merc_thread).2 = p) := by
  refine ⟨fun rcos rsin L f b h => weave_snd_radius_one rcos rsin L f b h,
    fun p => rfl, fun rcos rsin g => ⟨rfl, rfl⟩, ?_⟩
  intro rcos rsin p n
  obtain ⟨hr, hg⟩ := runCycles_loom_inv rcos rsin p n
  exact ⟨hr, by rw [weave_snd_radius_one _ _ _ _ _ hr, hg]⟩

/-- C10: a freshly constructed orchestrator has an empty accretion history,
harmony exactly `0` and stage Seed; the harmony recomputation guards the
empty history (setting harmony to `0` and returning before the division),
and after any append the history is nonempty, so the division is always by
a positive history length. -/
theorem fresh_state_empty_guard :
    (∀ p : Vec7,
        (GrandSynthesis.from_now p).flower.petals = []
          ∧ (GrandSynthesis.from_now p).flower.kohanist_level = 0
          ∧ (GrandSynthesis.from_now p).flower.bloom_state = BloomState.Seed)
    ∧ (∀ f : FlowerOfLife, f.petals = [] →
        f.update_kohanist = { f with kohanist_level := 0 })
    ∧ (∀ f : FlowerOfLife, f.petals ≠ [] →
        0 < f.petals.length
          ∧ f.update_kohanist.kohanist_level
              = (f.petals.map (petalContribution f.center)).sum
                  / f.petals.length)
    ∧ (∀ (f : FlowerOfLife) (t : Vec7), (f.add_petal t).petals ≠ []) := by
  refine ⟨fun p => ⟨rfl, rfl, rfl⟩, ?_, ?_, ?_⟩
  · intro f h
    unfold FlowerOfLife.update_kohanist
    rw [if_pos h]
  · intro f h
    refine ⟨List.length_pos.mpr h, ?_⟩
    unfold FlowerOfLife.update_kohanist
    rw [if_neg h]
  · intro f t
    rw [add_petal_petals]
    simp
